import Mathlib

/-!
Verification of the core behaviours of the `mac-screenshot-util` repository.

The development shallowly embeds three parts of the program:

* the screen-capture pipeline of `src/screen_capture.py`
  (`ScreenCaptureOverlay.take_screenshot`, `_take_direct_screenshot`,
  `keyPressEvent`, and the selection-rectangle geometry),
* the annotation undo/redo history of `src/annotation_window.py`
  (`DrawingArea._add_to_history`, `undo`, `redo`),
* the JSON preferences persistence of `src/service_app.py`
  (`save_preferences`, `load_preferences`, `DEFAULT_PREFERENCES`),
  together with a model of the `json` codec (`json.dumps` with
  `indent=4` on the preferences record, and the `json.loads` grammar
  on the fragment relevant to preference files).

External effects (the `screencapture` command, `pyautogui`, the Qt screen
grab, the pre-captured background bitmap, the widget's global position)
are modelled as inputs supplied in a `CaptureEnv` record; each `Option Img`
field is the result the corresponding external call would return, with
`none` standing for any of its failure modes (nonzero exit status, missing
or empty file, raised exception).  The control flow that combines those
results is translated from the Python source.
-/

/-- A PIL image, abstracted to its dimensions plus an identifying tag
(the tag distinguishes which source produced the bitmap; pixel contents
are irrelevant to the claims). PIL sizes are never negative. -/
structure Img where
  width : Nat
  height : Nat
  tag : Nat
deriving DecidableEq, Repr

/-- Qt's `QRect`, in the two-corner representation used by
`QRect(QPoint, QPoint)`: `(x1, y1)` is the top-left and `(x2, y2)` the
bottom-right point, both inclusive (so `width = x2 - x1 + 1`). -/
structure QRect where
  x1 : Int
  y1 : Int
  x2 : Int
  y2 : Int
deriving DecidableEq, Repr

/-- The `QRect(QPoint, QPoint)` constructor. -/
def QRect.fromPoints (p q : Int × Int) : QRect :=
  ⟨p.1, p.2, q.1, q.2⟩

/-- Qt 6 `QRect.normalized()`: swap the x pair when `x2 < x1` and the
y pair when `y2 < y1`. -/
def QRect.normalized (r : QRect) : QRect :=
  { x1 := if r.x2 < r.x1 then r.x2 else r.x1
    x2 := if r.x2 < r.x1 then r.x1 else r.x2
    y1 := if r.y2 < r.y1 then r.y2 else r.y1
    y2 := if r.y2 < r.y1 then r.y1 else r.y2 }

/-- Qt `QRect.width()` (inclusive-corner convention). -/
def QRect.width (r : QRect) : Int := r.x2 - r.x1 + 1

/-- Qt `QRect.height()`. -/
def QRect.height (r : QRect) : Int := r.y2 - r.y1 + 1

/-- One Qt screen: its geometry (`screen.geometry()`) and the result of
`screen.grabWindow(0)` (`none` models a null pixmap; the `Img` carries the
pixmap's dimensions). -/
structure ScreenInfo where
  x : Int
  y : Int
  w : Int
  h : Int
  grab : Option Img
deriving DecidableEq, Repr

/-- All inputs from outside the `take_screenshot` control flow. -/
structure CaptureEnv where
  /-- `sys.platform == "darwin"`. -/
  is_macos : Bool
  /-- The overlay widget's global position, so that
  `mapToGlobal p = p + offset` (the overlay is positioned at the combined
  screen geometry's top-left corner). -/
  offset : Int × Int
  /-- `self.background_image`: the pre-captured full-desktop bitmap. -/
  background_image : Option Img
  /-- Result of running `screencapture -x -R x,y,w,h file` and loading the
  produced file (`none` = nonzero exit, missing/empty file, load error). -/
  screencapture_region : Option Img
  /-- Result of `pyautogui.screenshot(region=(x, y, w, h))`
  (`none` = raised exception). -/
  pyautogui_region : Option Img
  /-- `QGuiApplication.screens()`. -/
  screens : List ScreenInfo
deriving DecidableEq, Repr

/-- The four acquisition mechanisms named by the specification. -/
inductive CaptureMethod where
  /-- The OS-native `screencapture -R` region command. -/
  | osNative
  /-- Cropping from the pre-captured full-desktop bitmap. -/
  | cropBackground
  /-- The toolkit-native (PyQt) screen grab. -/
  | toolkitGrab
  /-- The external screenshot library (pyautogui). -/
  | externalLib
deriving DecidableEq, Repr

/-- Outcome of a completed selection gesture: either
`on_capture_complete` was invoked exactly once with the given argument
(after the listed acquisition attempts), or the Python code raised a
`NameError` (`global_x` referenced before assignment on the
non-macOS, no-background path of line 522). -/
inductive CaptureResult where
  | completed (attempts : List CaptureMethod) (img : Option Img)
  | nameError
deriving DecidableEq, Repr

/-- Lines 455-463 of `screen_capture.py`: shift a selection box with a
negative origin onto the origin, shrinking its size — translated
literally (`global_width += global_x; global_x = 0`, then the same for y). -/
def adjust_negative (gx gy gw gh : Int) : Int × Int × Int × Int :=
  let gw' := if gx < 0 then gw + gx else gw
  let gx' := if gx < 0 then 0 else gx
  let gh' := if gy < 0 then gh + gy else gh
  let gy' := if gy < 0 then 0 else gy
  (gx', gy', gw', gh')

/-- Lines 485-488: clamp the adjusted box to the background-image bounds,
giving PIL crop coordinates `(x1, y1, x2, y2)`. -/
def clamp_box (bg : Img) (gx gy gw gh : Int) : Int × Int × Int × Int :=
  (max 0 (min gx ((bg.width : Int) - 1)),
   max 0 (min gy ((bg.height : Int) - 1)),
   max 0 (min (gx + gw) (bg.width : Int)),
   max 0 (min (gy + gh) (bg.height : Int)))

/-- Lines 454-495 of `take_screenshot`, decision part: the crop box that
would be passed to `background_image.crop`, or `none` when the code
instead invokes the callback with `None` (zero/negative adjusted size, or
an empty clamped box). -/
def crop_box (bg : Img) (gx gy gw gh : Int) : Option (Int × Int × Int × Int) :=
  match adjust_negative gx gy gw gh with
  | (gx', gy', gw', gh') =>
    if gw' ≤ 0 ∨ gh' ≤ 0 then none
    else
      match clamp_box bg gx' gy' gw' gh' with
      | (x1, y1, x2, y2) =>
        if x2 ≤ x1 ∨ y2 ≤ y1 then none else some (x1, y1, x2, y2)

/-- The image produced by the crop-from-background stage of
`take_screenshot` (`none` when the callback receives `None`).
`Image.crop((x1, y1, x2, y2))` yields an `(x2 - x1) × (y2 - y1)` image. -/
def crop_from_background (bg : Img) (gx gy gw gh : Int) : Option Img :=
  match crop_box bg gx gy gw gh with
  | none => none
  | some (x1, y1, x2, y2) => some ⟨(x2 - x1).toNat, (y2 - y1).toNat, bg.tag⟩

/-- Lines 707-713 of `_take_direct_screenshot` (method 3): crop from the
background with a slightly different guard (`x2 > x1 and y2 > y1`,
leaving the screenshot unset otherwise). -/
def direct_crop (bg : Img) (x y w h : Int) : Option Img :=
  let x1 := max 0 (min x ((bg.width : Int) - 1))
  let y1 := max 0 (min y ((bg.height : Int) - 1))
  let x2 := max 0 (min (x + w) (bg.width : Int))
  let y2 := max 0 (min (y + h) (bg.height : Int))
  if x1 < x2 ∧ y1 < y2 then some ⟨(x2 - x1).toNat, (y2 - y1).toNat, bg.tag⟩ else none

/-- Lines 718-752 of `_take_direct_screenshot` (method 4): walk the screen
list, pick the first screen that intersects the requested region and
yields a non-null grab, and crop the grabbed pixmap to screen-relative
coordinates (`QPixmap.copy` returns the whole pixmap when the requested
rectangle is empty, and a `relW × relH` pixmap otherwise). -/
def pyqt_region_grab (screens : List ScreenInfo) (x y w h : Int) : Option Img :=
  match screens with
  | [] => none
  | s :: rest =>
    if x < s.x + s.w ∧ x + w > s.x ∧ y < s.y + s.h ∧ y + h > s.y then
      match s.grab with
      | some px =>
        let relX := max 0 (x - s.x)
        let relY := max 0 (y - s.y)
        let relW := min w (s.w - relX)
        let relH := min h (s.h - relY)
        if relW ≤ 0 ∨ relH ≤ 0 then some px
        else some ⟨relW.toNat, relH.toNat, px.tag⟩
      | none => pyqt_region_grab rest x y w h
    else pyqt_region_grab rest x y w h

/-- Lines 758-773: the final dispatch of `_take_direct_screenshot` — the
callback receives the screenshot only when it has positive dimensions,
and `None` otherwise. -/
def finish_capture (tr : List CaptureMethod) (s : Option Img) : CaptureResult :=
  match s with
  | some i =>
    if 0 < i.width ∧ 0 < i.height then .completed tr (some i)
    else .completed tr none
  | none => .completed tr none

/-- Method 4 step of `_take_direct_screenshot` (attempted only when no
earlier method produced a screenshot). -/
def direct_method4 (env : CaptureEnv) (x y w h : Int) (tr : List CaptureMethod)
    (s : Option Img) : CaptureResult :=
  match s with
  | some i => finish_capture tr (some i)
  | none => finish_capture (tr ++ [.toolkitGrab]) (pyqt_region_grab env.screens x y w h)

/-- Method 3 step of `_take_direct_screenshot` (crop from the background
image, attempted only when the screenshot is still unset and a background
image exists). -/
def direct_method3 (env : CaptureEnv) (x y w h : Int) (tr : List CaptureMethod)
    (s : Option Img) : CaptureResult :=
  match s, env.background_image with
  | none, some bg =>
    direct_method4 env x y w h (tr ++ [.cropBackground]) (direct_crop bg x y w h)
  | s, _ => direct_method4 env x y w h tr s

/-- Method 2 step of `_take_direct_screenshot` (pyautogui region
screenshot, attempted only when method 1 failed). -/
def direct_method2 (env : CaptureEnv) (x y w h : Int) (tr : List CaptureMethod)
    (s : Option Img) : CaptureResult :=
  match s with
  | some i => direct_method3 env x y w h tr (some i)
  | none => direct_method3 env x y w h (tr ++ [.externalLib]) env.pyautogui_region

/-- `ScreenCaptureOverlay._take_direct_screenshot(x, y, width, height)`
(lines 632-773): the four fallback methods tried in source order —
macOS `screencapture -R`, pyautogui, crop from background, PyQt grab —
followed by the positive-dimension dispatch. `tr` accumulates the
attempts made before this call. -/
def take_direct_screenshot (env : CaptureEnv) (x y w h : Int)
    (tr : List CaptureMethod) : CaptureResult :=
  if env.is_macos then
    direct_method2 env x y w h (tr ++ [.osNative]) env.screencapture_region
  else
    direct_method2 env x y w h tr none

/-- Lines 396-403 (recomputed identically at lines 443-450): map the
normalized widget-space selection rectangle to global coordinates and
renormalize. -/
def global_box_of_rect (env : CaptureEnv) (rect : QRect) : Int × Int × Int × Int :=
  let g := (QRect.fromPoints (rect.x1 + env.offset.1, rect.y1 + env.offset.2)
    (rect.x2 + env.offset.1, rect.y2 + env.offset.2)).normalized
  (g.x1, g.y1, g.width, g.height)

/-- The background-image fallback and beyond (lines 439-522): crop from the
pre-captured bitmap when one exists — invoking the callback with the crop
result and never continuing to other methods — otherwise fall through to
`_take_direct_screenshot`; on a non-macOS platform without a background
image line 522 raises `NameError` (`global_x` was never assigned). -/
def after_direct (env : CaptureEnv) (gx gy gw gh : Int)
    (tr : List CaptureMethod) : CaptureResult :=
  match env.background_image with
  | some bg => .completed (tr ++ [.cropBackground]) (crop_from_background bg gx gy gw gh)
  | none =>
    if env.is_macos then take_direct_screenshot env gx gy gw gh tr
    else .nameError

/-- `ScreenCaptureOverlay.take_screenshot` given the already-normalized
selection rectangle (line 372 onwards): reject selections smaller than
10×10; on macOS attempt the direct `screencapture -R` capture when the
global box is strictly larger than 10×10 (its result, when present, is
passed to the callback without any dimension check); otherwise continue
with the background crop / direct-screenshot fallbacks. -/
def take_screenshot_rect (env : CaptureEnv) (rect : QRect) : CaptureResult :=
  if rect.width < 10 ∨ rect.height < 10 then .completed [] none
  else
    match global_box_of_rect env rect with
    | (gx, gy, gw, gh) =>
      if env.is_macos ∧ 10 < gw ∧ 10 < gh then
        match env.screencapture_region with
        | some img => .completed [.osNative] (some img)
        | none => after_direct env gx gy gw gh [.osNative]
      else after_direct env gx gy gw gh []

/-- Line 372: `QRect(self.start_point, self.end_point).normalized()`. -/
def selection_rect (p q : Int × Int) : QRect :=
  (QRect.fromPoints p q).normalized

/-- `ScreenCaptureOverlay.take_screenshot` as a function of the two
gesture points stored by `mousePressEvent` / `mouseReleaseEvent`. -/
def take_screenshot (env : CaptureEnv) (startP endP : Int × Int) : CaptureResult :=
  take_screenshot_rect env (selection_rect startP endP)

/-- The global selection box computed by `take_screenshot` for gesture
points `p`, `q`. -/
def global_box (env : CaptureEnv) (p q : Int × Int) : Int × Int × Int × Int :=
  global_box_of_rect env (selection_rect p q)

/-- The argument `on_capture_complete` received, when the pipeline
completed without raising. -/
def callback_value : CaptureResult → Option (Option Img)
  | .completed _ r => some r
  | .nameError => none

/-- The attempts the pipeline made, when it completed without raising. -/
def attempts_made : CaptureResult → List CaptureMethod
  | .completed tr _ => tr
  | .nameError => []

/-! ### The capture overlay's key handling (claim C5) -/

/-- The mutable overlay state touched by the event handlers. -/
structure OverlayState where
  visible : Bool
  is_capturing : Bool
  start_point : Int × Int
  end_point : Int × Int
deriving DecidableEq, Repr

/-- `Qt.Key.Key_Escape`. -/
def key_escape : Int := 0x01000000

/-- `ScreenCaptureOverlay.keyPressEvent` (lines 361-367): on Escape, hide
the overlay and invoke `on_capture_complete(None)`; any other key leaves
the state untouched and invokes nothing.  The second component is
`some arg` when `on_capture_complete arg` was invoked. -/
def keyPressEvent (s : OverlayState) (key : Int) : OverlayState × Option (Option Img) :=
  if key = key_escape then ({ s with visible := false }, some none)
  else (s, none)

/-! ### The annotation surface's undo/redo history
(`DrawingArea` in `src/annotation_window.py`)

Bitmaps are abstracted to tags (`QPixmap.copy()` has value semantics for
the purposes of history bookkeeping).  `history_index` is kept as a `Nat`:
in the Python source it starts at `0`, `undo` decrements it only when it
is positive, and `_add_to_history` decrements it only right after
incrementing it, so it never goes negative. -/

/-- An annotation bitmap, abstracted to an identifying tag. -/
abbrev Pix := Nat

/-- The fields of `DrawingArea` relevant to history management. -/
structure DrawingArea where
  pixmap : Pix
  history : List Pix
  history_index : Nat
deriving DecidableEq, Repr

/-- `DrawingArea.__init__` (lines 72-74): the history starts as a single
copy of the initial bitmap with the cursor on it. -/
def DrawingArea.mkInit (p : Pix) : DrawingArea :=
  { pixmap := p, history := [p], history_index := 0 }

/-- `DrawingArea._add_to_history` (lines 265-284):
pop entries from the end while the list is longer than `history_index + 1`
(dropping redone-and-overwritten entries), append a copy of the current
bitmap, advance the cursor, and if the list now exceeds 20 entries drop
the oldest one and pull the cursor back by one. -/
def DrawingArea.add_to_history (s : DrawingArea) : DrawingArea :=
  if 20 < (s.history.take (s.history_index + 1) ++ [s.pixmap]).length then
    { pixmap := s.pixmap,
      history := (s.history.take (s.history_index + 1) ++ [s.pixmap]).drop 1,
      history_index := s.history_index + 1 - 1 }
  else
    { pixmap := s.pixmap,
      history := s.history.take (s.history_index + 1) ++ [s.pixmap],
      history_index := s.history_index + 1 }

/-- `DrawingArea.undo` (lines 286-291). -/
def DrawingArea.undo (s : DrawingArea) : DrawingArea :=
  if 0 < s.history_index then
    { s with history_index := s.history_index - 1,
             pixmap := s.history.getD (s.history_index - 1) s.pixmap }
  else s

/-- `DrawingArea.redo` (lines 293-298). -/
def DrawingArea.redo (s : DrawingArea) : DrawingArea :=
  if s.history_index < s.history.length - 1 then
    { s with history_index := s.history_index + 1,
             pixmap := s.history.getD (s.history_index + 1) s.pixmap }
  else s

/-- The user-drivable operations on the annotation surface. -/
inductive DrawOp where
  /-- A drawing motion that mutates the bitmap without touching history
  (`_draw_line_to` during `mouseMoveEvent` with the pen tool). -/
  | paint (p : Pix)
  /-- A `mouseReleaseEvent`: the tool finishes drawing (producing bitmap
  `p`) and `_add_to_history` is called (lines 168-183). -/
  | release (p : Pix)
  | undo
  | redo
deriving DecidableEq, Repr

/-- One event-handler step of the annotation surface. -/
def DrawingArea.step (s : DrawingArea) : DrawOp → DrawingArea
  | .paint p => { s with pixmap := p }
  | .release p => DrawingArea.add_to_history { s with pixmap := p }
  | .undo => s.undo
  | .redo => s.redo

/-- A whole interaction session starting from a freshly constructed
`DrawingArea`. -/
def DrawingArea.run (s : DrawingArea) (ops : List DrawOp) : DrawingArea :=
  ops.foldl DrawingArea.step s

/-- The structural invariant of the history: at least one snapshot, at
most 20, and the cursor inside the list. -/
def DrawingArea.Inv (s : DrawingArea) : Prop :=
  1 ≤ s.history.length ∧ s.history.length ≤ 20 ∧
    s.history_index < s.history.length

/-! ### Preferences persistence (`src/service_app.py`)

`save_preferences` runs `json.dump(self.preferences, f, indent=4)` and
`load_preferences` runs `json.load(f)`, falling back to
`DEFAULT_PREFERENCES.copy()` when the file is missing or any exception is
raised.  The `json` codec is modelled below: `json_dumps_prefs` produces
exactly the text `json.dumps(d, indent=4)` produces for a preferences
dictionary `d` (ASCII-escaped strings, four-space indentation, `", "` /
`","` separators), and `json_loads` models the `json.loads` grammar on
the fragment that can occur in a preferences file (objects, arrays,
strings with escapes and surrogate pairs, `true`/`false`/`null`, and
integer literals; floating-point literals and lone-surrogate escapes are
outside the model and are treated as parse failures).  Python strings are
modelled as `List Char`. -/

/-- A JSON value as `json.loads` returns it (dictionaries keep insertion
order, as Python dicts do). -/
inductive JVal where
  | jnull
  | jbool (b : Bool)
  | jint (n : Int)
  | jstr (s : List Char)
  | jarr (xs : List JVal)
  | jobj (kvs : List (List Char × JVal))

/-- The character `{`. -/
def lbrace : Char := Char.ofNat 123

/-- The character `}`. -/
def rbrace : Char := Char.ofNat 125

/-- Lowercase hexadecimal digit for `n < 16`, as Python's
`'\\u{0:04x}'.format` produces. -/
def hexDigit (n : Nat) : Char :=
  if n < 10 then Char.ofNat (48 + n) else Char.ofNat (97 + (n - 10))

/-- The six-character escape `\uXXXX` for a code unit `n < 0x10000`. -/
def uEscape (n : Nat) : List Char :=
  ['\\', 'u', hexDigit (n / 4096 % 16), hexDigit (n / 256 % 16),
   hexDigit (n / 16 % 16), hexDigit (n % 16)]

/-- Python `json.encoder.py_encode_basestring_ascii`, per character:
printable ASCII other than `"` and `\` is copied verbatim; the eight
short escapes are used where they exist; every other character becomes
`\uXXXX`, with a UTF-16 surrogate pair for code points above `0xFFFF`. -/
def escape_char (c : Char) : List Char :=
  if c = '"' then ['\\', '"']
  else if c = '\\' then ['\\', '\\']
  else if c.toNat = 8 then ['\\', 'b']
  else if c.toNat = 9 then ['\\', 't']
  else if c.toNat = 10 then ['\\', 'n']
  else if c.toNat = 12 then ['\\', 'f']
  else if c.toNat = 13 then ['\\', 'r']
  else if 0x20 ≤ c.toNat ∧ c.toNat ≤ 0x7e then [c]
  else if c.toNat < 0x10000 then uEscape c.toNat
  else uEscape (0xd800 + (c.toNat - 0x10000) / 0x400) ++
       uEscape (0xdc00 + (c.toNat - 0x10000) % 0x400)

/-- A JSON string literal, quotes included. -/
def encode_string (s : List Char) : List Char :=
  '"' :: (s.map escape_char).flatten ++ ['"']

/-- The tail of an encoded JSON string literal inside a larger text: the
escaped body, the closing quote, then the rest of the input. -/
def string_body (s l : List Char) : List Char :=
  (s.map escape_char).flatten ++ '"' :: l

/-- JSON whitespace, as accepted by `json.loads`. -/
def is_json_ws (c : Char) : Bool :=
  c = ' ' ∨ c = '\t' ∨ c = '\n' ∨ c = '\r'

/-- Drop leading JSON whitespace. -/
def skip_ws : List Char → List Char
  | [] => []
  | c :: rest => if is_json_ws c then skip_ws rest else c :: rest

/-- Value of one hexadecimal digit (`json.loads` accepts both cases). -/
def hexVal (c : Char) : Option Nat :=
  if '0' ≤ c ∧ c ≤ '9' then some (c.toNat - 48)
  else if 'a' ≤ c ∧ c ≤ 'f' then some (c.toNat - 87)
  else if 'A' ≤ c ∧ c ≤ 'F' then some (c.toNat - 55)
  else none

/-- Value of a four-digit hexadecimal escape body. -/
def hex4 (a b c d : Char) : Option Nat :=
  match hexVal a, hexVal b, hexVal c, hexVal d with
  | some x, some y, some z, some w => some (x * 4096 + y * 256 + z * 16 + w)
  | _, _, _, _ => none

mutual

/-- Scan a JSON string body after the opening quote, returning the decoded
characters and the input following the closing quote.  Mirrors
`json.decoder.py_scanstring` in strict mode: raw control characters are
rejected, escapes are delegated to `scan_escape`. -/
def scan_string : List Char → Option (List Char × List Char)
  | [] => none
  | c :: rest =>
    if c = '"' then some ([], rest)
    else if c = '\\' then scan_escape rest
    else if c.toNat < 0x20 then none
    else (fun p => (c :: p.1, p.2)) <$> scan_string rest

/-- Decode one escape sequence (the input starts just after the
backslash): the eight short escapes, or `\uXXXX` via `scan_unicode`. -/
def scan_escape : List Char → Option (List Char × List Char)
  | [] => none
  | e :: rest1 =>
    if e = '"' then (fun p => ('"' :: p.1, p.2)) <$> scan_string rest1
    else if e = '\\' then (fun p => ('\\' :: p.1, p.2)) <$> scan_string rest1
    else if e = '/' then (fun p => ('/' :: p.1, p.2)) <$> scan_string rest1
    else if e = 'b' then (fun p => (Char.ofNat 8 :: p.1, p.2)) <$> scan_string rest1
    else if e = 'f' then (fun p => (Char.ofNat 12 :: p.1, p.2)) <$> scan_string rest1
    else if e = 'n' then (fun p => (Char.ofNat 10 :: p.1, p.2)) <$> scan_string rest1
    else if e = 'r' then (fun p => (Char.ofNat 13 :: p.1, p.2)) <$> scan_string rest1
    else if e = 't' then (fun p => (Char.ofNat 9 :: p.1, p.2)) <$> scan_string rest1
    else if e = 'u' then scan_unicode rest1
    else none

/-- Decode a `\uXXXX` escape body (the four hex digits and everything
after them).  A high surrogate requires a following low-surrogate escape
(`scan_low_surrogate`); escapes decoding to a lone surrogate have no
`Char` counterpart and are treated as failures. -/
def scan_unicode : List Char → Option (List Char × List Char)
  | a :: b :: c :: d :: rest2 =>
    match hex4 a b c d with
    | none => none
    | some n =>
      if 0xd800 ≤ n ∧ n ≤ 0xdbff then scan_low_surrogate n rest2
      else if 0xdc00 ≤ n ∧ n ≤ 0xdfff then none
      else (fun p => (Char.ofNat n :: p.1, p.2)) <$> scan_string rest2
  | _ => none

/-- Decode the low half `\uXXXX` of a surrogate pair whose high half had
value `n`, combining both into one code point. -/
def scan_low_surrogate (n : Nat) : List Char → Option (List Char × List Char)
  | b1 :: b2 :: e1 :: e2 :: e3 :: e4 :: rest3 =>
    if b1 = '\\' ∧ b2 = 'u' then
      match hex4 e1 e2 e3 e4 with
      | none => none
      | some m =>
        if 0xdc00 ≤ m ∧ m ≤ 0xdfff then
          (fun p =>
            (Char.ofNat (0x10000 + (n - 0xd800) * 0x400 + (m - 0xdc00)) :: p.1,
             p.2)) <$> scan_string rest3
        else none
    else none
  | _ => none

end

/-- Longest leading run of decimal digits. -/
def scan_digits : List Char → List Char × List Char
  | [] => ([], [])
  | c :: rest =>
    if c.isDigit then
      match scan_digits rest with
      | (ds, r) => (c :: ds, r)
    else ([], c :: rest)

/-- Numeric value of a digit run. -/
def digits_to_nat (ds : List Char) : Nat :=
  ds.foldl (fun a c => a * 10 + (c.toNat - 48)) 0

/-- An integer literal (JSON floating-point forms are outside the model). -/
def parse_int_lit (input : List Char) : Option (JVal × List Char) :=
  match input with
  | [] => none
  | c :: rest =>
    if c = '-' then
      match scan_digits rest with
      | ([], _) => none
      | (ds, r) => some (.jint (-(digits_to_nat ds : Int)), r)
    else
      match scan_digits input with
      | ([], _) => none
      | (ds, r) => some (.jint (digits_to_nat ds), r)

mutual

/-- One JSON value, `json.loads` style: skip whitespace, then dispatch on
the first character.  `fuel` bounds the recursion depth; `json_loads`
supplies more fuel than any input can consume. -/
def parse_value : Nat → List Char → Option (JVal × List Char)
  | 0, _ => none
  | fuel + 1, input =>
    match skip_ws input with
    | [] => none
    | c :: rest =>
      if c = lbrace then
        match skip_ws rest with
        | [] => none
        | c2 :: rest2 =>
          if c2 = rbrace then some (.jobj [], rest2)
          else parse_members fuel rest []
      else if c = '[' then
        match skip_ws rest with
        | [] => none
        | c2 :: rest2 =>
          if c2 = ']' then some (.jarr [], rest2)
          else parse_items fuel rest []
      else if c = '"' then
        match scan_string rest with
        | some (s, rest1) => some (.jstr s, rest1)
        | none => none
      else if c = 't' then
        match rest with
        | 'r' :: 'u' :: 'e' :: r => some (.jbool true, r)
        | _ => none
      else if c = 'f' then
        match rest with
        | 'a' :: 'l' :: 's' :: 'e' :: r => some (.jbool false, r)
        | _ => none
      else if c = 'n' then
        match rest with
        | 'u' :: 'l' :: 'l' :: r => some (.jnull, r)
        | _ => none
      else if c = '-' ∨ c.isDigit then parse_int_lit (c :: rest)
      else none

/-- The members of a JSON object after its `{`, accumulating into `acc`. -/
def parse_members : Nat → List Char → List (List Char × JVal) →
    Option (JVal × List Char)
  | 0, _, _ => none
  | fuel + 1, input, acc =>
    match skip_ws input with
    | [] => none
    | c :: rest =>
      if c = '"' then
        match scan_string rest with
        | none => none
        | some (key, rest1) =>
          match skip_ws rest1 with
          | [] => none
          | c2 :: rest2 =>
            if c2 = ':' then
              match parse_value fuel rest2 with
              | none => none
              | some (v, rest3) =>
                match skip_ws rest3 with
                | [] => none
                | c3 :: rest4 =>
                  if c3 = ',' then parse_members fuel rest4 (acc ++ [(key, v)])
                  else if c3 = rbrace then some (.jobj (acc ++ [(key, v)]), rest4)
                  else none
            else none
      else none

/-- The items of a JSON array after its `[`, accumulating into `acc`. -/
def parse_items : Nat → List Char → List JVal → Option (JVal × List Char)
  | 0, _, _ => none
  | fuel + 1, input, acc =>
    match parse_value fuel input with
    | none => none
    | some (v, rest) =>
      match skip_ws rest with
      | [] => none
      | c :: rest2 =>
        if c = ',' then parse_items fuel rest2 (acc ++ [v])
        else if c = ']' then some (.jarr (acc ++ [v]), rest2)
        else none

end

/-- `json.loads`: parse one value and insist nothing but whitespace
follows; `none` models a raised `JSONDecodeError`. -/
def json_loads (input : List Char) : Option JVal :=
  match parse_value (input.length + 1) input with
  | some (v, rest) => if skip_ws rest = [] then some v else none
  | none => none

/-- The typed preferences record named by the specification. -/
structure HotkeySpec where
  key : List Char
  modifiers : List (List Char)

/-- A preferences record: hotkey spec, save location, auto-launch flag. -/
structure Preferences where
  hotkey : HotkeySpec
  save_location : List Char
  auto_launch : Bool

/-- The dictionary `self.preferences` holding a `Preferences` record, in
the key order of `DEFAULT_PREFERENCES` (lines 20-24 of
`service_app.py`). -/
def prefsJVal (p : Preferences) : JVal :=
  .jobj [("hotkey".toList,
            .jobj [("key".toList, .jstr p.hotkey.key),
                   ("modifiers".toList, .jarr (p.hotkey.modifiers.map .jstr))]),
         ("save_location".toList, .jstr p.save_location),
         ("auto_launch".toList, .jbool p.auto_launch)]

/-- `DEFAULT_PREFERENCES` (lines 20-24 of `service_app.py`). -/
def DEFAULT_PREFERENCES : JVal :=
  prefsJVal { hotkey := { key := "4".toList,
                          modifiers := ["command".toList, "shift".toList] },
              save_location := "~/Screenshots".toList,
              auto_launch := true }

/-- A newline followed by the four-space-per-level indentation
`json.dumps(..., indent=4)` emits. -/
def nl_ind (d : Nat) : List Char :=
  '\n' :: List.replicate (4 * d) ' '

/-- The text of the `modifiers` array after its first element (depth 2,
so items are indented 12 spaces and the closing bracket 8). -/
def mods_items_rest (ms : List (List Char)) : List Char :=
  match ms with
  | [] => nl_ind 2 ++ [']']
  | m :: tl => ',' :: nl_ind 3 ++ encode_string m ++ mods_items_rest tl

/-- The text of the `modifiers` array value. -/
def mods_text (ms : List (List Char)) : List Char :=
  match ms with
  | [] => ['[', ']']
  | m :: tl => '[' :: nl_ind 3 ++ encode_string m ++ mods_items_rest tl

/-- The text of a JSON boolean. -/
def bool_text (b : Bool) : List Char :=
  if b then "true".toList else "false".toList

/-- The text of the nested `hotkey` object (depth 1, members at indent 8). -/
def hotkey_obj_text (hk : HotkeySpec) : List Char :=
  lbrace :: nl_ind 2 ++ encode_string "key".toList ++ ':' :: ' ' ::
    encode_string hk.key ++ ',' :: nl_ind 2 ++
    encode_string "modifiers".toList ++ ':' :: ' ' ::
    mods_text hk.modifiers ++ nl_ind 1 ++ [rbrace]

/-- `json.dumps(prefs_dict, indent=4)`: the exact file text
`save_preferences` writes for a preferences record. -/
def json_dumps_prefs (p : Preferences) : List Char :=
  lbrace :: nl_ind 1 ++ encode_string "hotkey".toList ++ ':' :: ' ' ::
    hotkey_obj_text p.hotkey ++ ',' :: nl_ind 1 ++
    encode_string "save_location".toList ++ ':' :: ' ' ::
    encode_string p.save_location ++ ',' :: nl_ind 1 ++
    encode_string "auto_launch".toList ++ ':' :: ' ' ::
    bool_text p.auto_launch ++ nl_ind 0 ++ [rbrace]

/-- `ScreenshotUtilService.save_preferences` (lines 542-548): the file
contents written to `self.preferences_path`. -/
def save_preferences (p : Preferences) : List Char :=
  json_dumps_prefs p

/-- `ScreenshotUtilService.load_preferences` (lines 529-540): `file` is
the preference file's contents, or `none` when `os.path.exists` is false.
A parse failure (raised exception) falls back to
`DEFAULT_PREFERENCES.copy()`. -/
def load_preferences (file : Option (List Char)) : JVal :=
  match file with
  | some text =>
    match json_loads text with
    | some v => v
    | none => DEFAULT_PREFERENCES
  | none => DEFAULT_PREFERENCES

/-! ### Statement material for the pipeline-order claim (C1)

`capture_pipeline_claim` formalises the specification sentence: the four
acquisition methods are attempted in the order OS-native command, crop
from background, toolkit grab, external library, and the callback
receives the first non-empty result (`None` on total failure).
`amended_pipeline` states what the code actually does, following the
amended claim's words; it is compared against `take_screenshot`. -/

/-- What each acquisition method would return in a given environment for
a given global selection box. -/
def method_result (env : CaptureEnv) (box : Int × Int × Int × Int) :
    CaptureMethod → Option Img
  | .osNative => env.screencapture_region
  | .cropBackground =>
    match env.background_image with
    | some bg => crop_from_background bg box.1 box.2.1 box.2.2.1 box.2.2.2
    | none => none
  | .toolkitGrab => pyqt_region_grab env.screens box.1 box.2.1 box.2.2.1 box.2.2.2
  | .externalLib => env.pyautogui_region

/-- A present image with positive dimensions. -/
def nonempty_img : Option Img → Bool
  | some i => 0 < i.width && 0 < i.height
  | none => false

/-- The first non-empty result among the given methods, in order. -/
def first_nonempty (env : CaptureEnv) (box : Int × Int × Int × Int) :
    List CaptureMethod → Option Img
  | [] => none
  | m :: ms =>
    if nonempty_img (method_result env box m) then method_result env box m
    else first_nonempty env box ms

/-- The acquisition order asserted by the specification. -/
def spec_claim_order : List CaptureMethod :=
  [.osNative, .cropBackground, .toolkitGrab, .externalLib]

/-- Claim C1 as stated: for every completed (and accepted) selection
gesture, the callback receives the first non-empty result of the four
methods tried in the specification's order. -/
def capture_pipeline_claim : Prop :=
  ∀ (env : CaptureEnv) (p q : Int × Int),
    10 ≤ (selection_rect p q).width → 10 ≤ (selection_rect p q).height →
    callback_value (take_screenshot env p q) =
      some (first_nonempty env (global_box env p q) spec_claim_order)

/-- Modelled from the amended claim's words: the OS-native region command
is attempted first (only when the global box is strictly larger than
10×10) and its result, if any, goes straight to the callback; otherwise,
when a pre-captured background bitmap exists, the callback receives the
background crop or `None` and no further method is attempted; only
without a background bitmap are the remaining methods attempted, in the
order OS-native command (again), external library, toolkit grab, the
callback receiving the first result — subjected to a positive-dimension
check — or `None` when all fail. -/
def amended_pipeline (env : CaptureEnv) (box : Int × Int × Int × Int) :
    List CaptureMethod × Option Img :=
  match box with
  | (gx, gy, gw, gh) =>
    let osAttempt : List CaptureMethod :=
      if 10 < gw ∧ 10 < gh then [.osNative] else []
    let dir : Option Img :=
      if 10 < gw ∧ 10 < gh then env.screencapture_region else none
    match dir with
    | some i => (osAttempt, some i)
    | none =>
      match env.background_image with
      | some bg => (osAttempt ++ [.cropBackground], crop_from_background bg gx gy gw gh)
      | none =>
        let rest : List CaptureMethod × Option Img :=
          match env.screencapture_region with
          | some i => ([.osNative], some i)
          | none =>
            match env.pyautogui_region with
            | some i => ([.osNative, .externalLib], some i)
            | none => ([.osNative, .externalLib, .toolkitGrab],
                       pyqt_region_grab env.screens gx gy gw gh)
        (osAttempt ++ rest.1,
         match rest.2 with
         | some i => if 0 < i.width ∧ 0 < i.height then some i else none
         | none => none)

/-- A macOS environment in which the OS-native command fails, no
background bitmap exists, the external library succeeds with a 50×50
image and the toolkit grab would succeed with a 100×100 image. -/
def envC1 : CaptureEnv :=
  { is_macos := true, offset := (0, 0), background_image := none,
    screencapture_region := none, pyautogui_region := some ⟨50, 50, 1⟩,
    screens := [⟨0, 0, 1000, 1000, some ⟨1000, 1000, 2⟩⟩] }

/-! ## Theorems -/

/-! ### Claim C8: the selection rectangle is the normalization of the two
gesture points, invariant under swapping them. -/

/-- Claim C8: the rectangle captured by `take_screenshot` is the
normalized rectangle spanned by the press point `p` and the release point
`q` (its corners are the coordinatewise min and max of the two points),
and swapping the two points — dragging in the opposite direction — yields
the same rectangle and the same capture outcome in every environment. -/
theorem selection_rect_normalized_and_symmetric (p q : Int × Int) :
    selection_rect p q =
      ⟨min p.1 q.1, min p.2 q.2, max p.1 q.1, max p.2 q.2⟩ ∧
    selection_rect p q = selection_rect q p ∧
    ∀ env : CaptureEnv, take_screenshot env p q = take_screenshot env q p := by
  have hnorm : ∀ a b : Int × Int,
      selection_rect a b = ⟨min a.1 b.1, min a.2 b.2, max a.1 b.1, max a.2 b.2⟩ := by
    intro a b
    simp only [selection_rect, QRect.fromPoints, QRect.normalized, QRect.mk.injEq]
    refine ⟨?_, ?_, ?_, ?_⟩ <;> simp only [min_def, max_def] <;> split_ifs <;> omega
  have hsymm : selection_rect p q = selection_rect q p := by
    rw [hnorm p q, hnorm q p]
    simp [Int.min_comm, Int.max_comm]
  exact ⟨hnorm p q, hsymm, fun env => by
    unfold take_screenshot
    rw [hsymm]⟩

/-! ### Claim C9: selections narrower or shorter than 10 pixels are
rejected with no acquisition attempt. -/

/-- Claim C9: when the normalized selection rectangle is narrower or
shorter than 10 pixels, `take_screenshot` invokes the completion callback
with `None` and attempts no screenshot method. -/
theorem take_screenshot_rejects_small (env : CaptureEnv) (p q : Int × Int)
    (h : (selection_rect p q).width < 10 ∨ (selection_rect p q).height < 10) :
    take_screenshot env p q = .completed [] none := by
  unfold take_screenshot take_screenshot_rect
  rw [if_pos h]

/-- Witness for C9 at a concrete degenerate drag (both points equal, so
the Qt rectangle is 1×1). -/
theorem take_screenshot_rejects_small_witness :
    ((selection_rect (0, 0) (0, 0)).width < 10 ∨
      (selection_rect (0, 0) (0, 0)).height < 10) ∧
    take_screenshot envC1 (0, 0) (0, 0) = .completed [] none :=
  ⟨by decide, take_screenshot_rejects_small envC1 (0, 0) (0, 0) (by decide)⟩

/-! ### Claim C5: Escape cancels the capture and signals failure. -/

/-- Claim C5: in every overlay state, pressing Escape hides the overlay
and invokes the completion callback with `None`; nothing else in the
state changes and no screenshot is produced. -/
theorem keyPressEvent_escape_cancels (s : OverlayState) :
    keyPressEvent s key_escape = ({ s with visible := false }, some none) := by
  simp [keyPressEvent]

/-! ### Claim C10: the crop box passed to the background image is in
bounds and non-empty whenever a crop is performed; an empty clamped box
leads to the callback receiving `None` instead. -/

/-- Claim C10: for every selection box — negative coordinates included —
if the crop-from-background stage of `take_screenshot` decides to crop,
the box `(x1, y1, x2, y2)` it passes to `Image.crop` satisfies
`0 ≤ x1 < x2 ≤ width` and `0 ≤ y1 < y2 ≤ height`; and whenever the
adjusted/clamped box is empty, the stage completes with the callback
receiving `None` rather than cropping. -/
theorem crop_box_in_bounds (bg : Img) (gx gy gw gh : Int) :
    (∀ x1 y1 x2 y2, crop_box bg gx gy gw gh = some (x1, y1, x2, y2) →
      0 ≤ x1 ∧ x1 < x2 ∧ x2 ≤ (bg.width : Int) ∧
      0 ≤ y1 ∧ y1 < y2 ∧ y2 ≤ (bg.height : Int)) ∧
    (crop_box bg gx gy gw gh = none →
      ∀ (env : CaptureEnv) (tr : List CaptureMethod),
        env.background_image = some bg →
        after_direct env gx gy gw gh tr = .completed (tr ++ [.cropBackground]) none) := by
  constructor
  · intro x1 y1 x2 y2 hsome
    unfold crop_box adjust_negative clamp_box at hsome
    simp only at hsome
    split_ifs at hsome <;>
      simp only [Option.some.injEq, Prod.mk.injEq] at hsome <;>
      obtain ⟨h1, h2, h3, h4⟩ := hsome <;> subst h1 <;> subst h2 <;> subst h3 <;> subst h4 <;>
      omega
  · intro hnone env tr henv
    unfold after_direct
    rw [henv]
    simp [crop_from_background, hnone]

/-- Witness for C10 at a selection that starts on a second monitor at
negative global coordinates and overflows the background image. -/
theorem crop_box_in_bounds_witness :
    crop_box ⟨800, 600, 7⟩ (-50) (-40) 900 700 = some (0, 0, 800, 600) ∧
    (0 ≤ (0 : Int) ∧ (0 : Int) < 800 ∧ (800 : Int) ≤ ((800 : Nat) : Int) ∧
     0 ≤ (0 : Int) ∧ (0 : Int) < 600 ∧ (600 : Int) ≤ ((600 : Nat) : Int)) :=
  ⟨by decide,
   (crop_box_in_bounds ⟨800, 600, 7⟩ (-50) (-40) 900 700).1 0 0 800 600 (by decide)⟩

/-! ### Claim C1 (corrected): the acquisition pipeline's order and
first-non-empty behaviour. -/

/-- Counterexample to claim C1 as stated: in `envC1` (no background
bitmap, OS-native command failing, both remaining methods able to
succeed), the claimed order would hand the callback the toolkit grab's
100×100 image, but the code attempts the external library first and the
callback receives its 50×50 image. -/
theorem capture_pipeline_claim_false : ¬ capture_pipeline_claim := by
  intro h
  exact absurd (h envC1 (0, 0) (99, 99) (by decide) (by decide)) (by decide)

/-- Claim C1 as amended: on macOS, for an accepted selection, the
attempts made and the value handed to the completion callback are exactly
those of `amended_pipeline` — OS-native first (when the global box
exceeds 10×10, its result reaching the callback unchecked), then a crop
from the background bitmap terminating the pipeline when such a bitmap
exists, and otherwise the OS-native command again, the external library
and finally the toolkit grab, the first positive-dimension result (or
`None`) reaching the callback. -/
theorem take_screenshot_amended (env : CaptureEnv) (p q : Int × Int)
    (hmac : env.is_macos = true)
    (hw : 10 ≤ (selection_rect p q).width)
    (hh : 10 ≤ (selection_rect p q).height) :
    take_screenshot env p q =
      .completed (amended_pipeline env (global_box env p q)).1
        (amended_pipeline env (global_box env p q)).2 := by
  have hgate : ¬((selection_rect p q).width < 10 ∨ (selection_rect p q).height < 10) := by
    omega
  unfold take_screenshot take_screenshot_rect global_box
  rw [if_neg hgate]
  rcases hbox : global_box_of_rect env (selection_rect p q) with ⟨gx, gy, gw, gh⟩
  by_cases hd : (10 : Int) < gw ∧ 10 < gh <;>
    cases hsc : env.screencapture_region <;>
    cases hbg : env.background_image <;>
    cases hpy : env.pyautogui_region <;>
    cases hpq : pyqt_region_grab env.screens gx gy gw gh <;>
    simp [after_direct, take_direct_screenshot, direct_method2, direct_method3,
      direct_method4, finish_capture, amended_pipeline, hmac, hd, hsc, hbg, hpy, hpq] <;>
    (try (split <;> rfl))

/-- Witness for the amended C1 theorem at `envC1`. -/
theorem take_screenshot_amended_witness :
    envC1.is_macos = true ∧
    take_screenshot envC1 (0, 0) (99, 99) =
      .completed (amended_pipeline envC1 (global_box envC1 (0, 0) (99, 99))).1
        (amended_pipeline envC1 (global_box envC1 (0, 0) (99, 99))).2 :=
  ⟨rfl, take_screenshot_amended envC1 (0, 0) (99, 99) rfl (by decide) (by decide)⟩

/-! ### Claims C2-C4: the annotation history invariants. -/

theorem DrawingArea.inv_mkInit (p : Pix) : (DrawingArea.mkInit p).Inv := by
  simp [DrawingArea.mkInit, DrawingArea.Inv]

theorem DrawingArea.inv_add_to_history {s : DrawingArea} (h : s.Inv) :
    s.add_to_history.Inv := by
  obtain ⟨h1, h2, h3⟩ := h
  unfold DrawingArea.add_to_history
  split_ifs with hlen <;>
    refine ⟨?_, ?_, ?_⟩ <;>
    simp only [List.length_drop, List.length_append, List.length_take,
      List.length_singleton] at hlen ⊢ <;>
    omega

theorem DrawingArea.inv_undo {s : DrawingArea} (h : s.Inv) : s.undo.Inv := by
  obtain ⟨h1, h2, h3⟩ := h
  unfold DrawingArea.undo
  split_ifs with hpos
  · refine ⟨h1, h2, ?_⟩
    show s.history_index - 1 < s.history.length
    omega
  · exact ⟨h1, h2, h3⟩

theorem DrawingArea.inv_redo {s : DrawingArea} (h : s.Inv) : s.redo.Inv := by
  obtain ⟨h1, h2, h3⟩ := h
  unfold DrawingArea.redo
  split_ifs with hlt
  · refine ⟨h1, h2, ?_⟩
    show s.history_index + 1 < s.history.length
    omega
  · exact ⟨h1, h2, h3⟩

theorem DrawingArea.inv_step {s : DrawingArea} (h : s.Inv) (op : DrawOp) :
    (s.step op).Inv := by
  cases op with
  | paint p => exact h
  | release p => exact DrawingArea.inv_add_to_history ⟨h.1, h.2.1, h.2.2⟩
  | undo => exact DrawingArea.inv_undo h
  | redo => exact DrawingArea.inv_redo h

theorem DrawingArea.inv_run {s : DrawingArea} (h : s.Inv) (ops : List DrawOp) :
    (s.run ops).Inv := by
  induction ops generalizing s with
  | nil => exact h
  | cons op rest ih => exact ih (DrawingArea.inv_step h op)

/-- Claim C2: a freshly constructed `DrawingArea` has exactly one history
snapshot, and after any sequence of drawing, undo and redo operations the
history holds between 1 and 20 snapshots. -/
theorem history_length_bounded (p0 : Pix) (ops : List DrawOp) :
    (DrawingArea.mkInit p0).history.length = 1 ∧
    1 ≤ ((DrawingArea.mkInit p0).run ops).history.length ∧
    ((DrawingArea.mkInit p0).run ops).history.length ≤ 20 := by
  have h := DrawingArea.inv_run (DrawingArea.inv_mkInit p0) ops
  exact ⟨rfl, h.1, h.2.1⟩

/-- Claim C3: after any operation sequence the cursor satisfies
`0 ≤ history_index ≤ len(history) - 1` (the lower bound holding because
the index, a natural number here, never needs to go negative: `undo` is
guarded); moreover `undo` at index 0 and `redo` at the last index leave
the state — cursor and bitmap included — unchanged. -/
theorem history_cursor_in_bounds (p0 : Pix) (ops : List DrawOp)
    (s : DrawingArea) (hs : s = (DrawingArea.mkInit p0).run ops) :
    s.history_index ≤ s.history.length - 1 ∧
    (s.history_index = 0 → s.undo = s) ∧
    (s.history_index = s.history.length - 1 → s.redo = s) := by
  subst hs
  have h := DrawingArea.inv_run (DrawingArea.inv_mkInit p0) ops
  obtain ⟨h1, h2, h3⟩ := h
  refine ⟨by omega, fun h0 => ?_, fun hlast => ?_⟩
  · unfold DrawingArea.undo
    rw [if_neg (by omega)]
  · unfold DrawingArea.redo
    rw [if_neg (by omega)]

/-- Witness for C3 after the session `release 1, release 2, undo, undo`
(history `[5, 1, 2]`, cursor at 0). -/
theorem history_cursor_in_bounds_witness :
    let s : DrawingArea := ⟨5, [5, 1, 2], 0⟩
    s.history_index ≤ s.history.length - 1 ∧
    (s.history_index = 0 → s.undo = s) ∧
    (s.history_index = s.history.length - 1 → s.redo = s) :=
  history_cursor_in_bounds 5 [.release 1, .release 2, .undo, .undo]
    ⟨5, [5, 1, 2], 0⟩ (by decide)

/-- Claim C4: calling `_add_to_history` with the cursor strictly inside
the history removes every entry after the cursor before appending the new
snapshot; afterwards the new snapshot is the last entry and the cursor
points at it. -/
theorem add_to_history_truncates (p0 : Pix) (ops : List DrawOp)
    (s : DrawingArea) (hs : s = (DrawingArea.mkInit p0).run ops)
    (hcur : s.history_index + 1 < s.history.length) :
    s.add_to_history.history = s.history.take (s.history_index + 1) ++ [s.pixmap] ∧
    s.add_to_history.history.getLast? = some s.pixmap ∧
    s.add_to_history.history_index = s.add_to_history.history.length - 1 ∧
    s.add_to_history.history_index = s.history_index + 1 := by
  have h := DrawingArea.inv_run (DrawingArea.inv_mkInit p0) ops
  rw [← hs] at h
  obtain ⟨h1, h2, h3⟩ := h
  have htake : (s.history.take (s.history_index + 1)).length = s.history_index + 1 := by
    simp [List.length_take]
    omega
  have hnopop : ¬ 20 < (s.history.take (s.history_index + 1) ++ [s.pixmap]).length := by
    simp only [List.length_append, htake, List.length_singleton]
    omega
  unfold DrawingArea.add_to_history
  rw [if_neg hnopop]
  refine ⟨rfl, ?_, ?_, rfl⟩
  · simp
  · simp [htake]

/-- Witness for C4 at the reachable state with history `[5, 1, 2]` and
cursor 0: the redone entries `1, 2` are removed and the snapshot `5`
appended. -/
theorem add_to_history_truncates_witness :
    let s : DrawingArea := ⟨5, [5, 1, 2], 0⟩
    s.add_to_history.history = s.history.take (s.history_index + 1) ++ [s.pixmap] ∧
    s.add_to_history.history.getLast? = some s.pixmap ∧
    s.add_to_history.history_index = s.add_to_history.history.length - 1 ∧
    s.add_to_history.history_index = s.history_index + 1 :=
  add_to_history_truncates 5 [.release 1, .release 2, .undo, .undo]
    ⟨5, [5, 1, 2], 0⟩ (by decide) (by decide)

/-! ### Claims C6-C7: the JSON codec lemmas. -/

theorem skip_ws_not_ws (c : Char) (l : List Char) (h : is_json_ws c = false) :
    skip_ws (c :: l) = c :: l := by
  simp [skip_ws, h]

theorem skip_ws_space (l : List Char) : skip_ws (' ' :: l) = skip_ws l := by
  simp [skip_ws, is_json_ws]

theorem skip_ws_replicate_space (n : Nat) (l : List Char) :
    skip_ws (List.replicate n ' ' ++ l) = skip_ws l := by
  induction n with
  | zero => rfl
  | succ k ih => simpa [List.replicate_succ, skip_ws, is_json_ws] using ih

theorem skip_ws_nl_ind (d : Nat) (l : List Char) :
    skip_ws (nl_ind d ++ l) = skip_ws l := by
  simp [nl_ind, skip_ws, is_json_ws, skip_ws_replicate_space]

/-- Every `Char` is a Unicode scalar value: below the surrogate range or
strictly between it and `0x110000`. -/
theorem char_toNat_valid (c : Char) :
    c.toNat < 0xd800 ∨ (0xdfff < c.toNat ∧ c.toNat < 0x110000) := by
  rcases c.valid with h | ⟨h1, h2⟩
  · left
    exact h
  · right
    exact ⟨h1, h2⟩

theorem hexVal_hexDigit (n : Nat) (h : n < 16) : hexVal (hexDigit n) = some n := by
  interval_cases n <;> decide

theorem hex4_digits (n : Nat) (h : n < 65536) :
    hex4 (hexDigit (n / 4096 % 16)) (hexDigit (n / 256 % 16))
      (hexDigit (n / 16 % 16)) (hexDigit (n % 16)) = some n := by
  unfold hex4
  rw [hexVal_hexDigit _ (Nat.mod_lt _ (by omega)),
      hexVal_hexDigit _ (Nat.mod_lt _ (by omega)),
      hexVal_hexDigit _ (Nat.mod_lt _ (by omega)),
      hexVal_hexDigit _ (Nat.mod_lt _ (by omega))]
  have harith : n / 4096 % 16 * 4096 + n / 256 % 16 * 256 + n / 16 % 16 * 16 + n % 16 = n := by
    omega
  exact congrArg some harith

theorem scan_string_backslash_u (a b c d : Char) (l : List Char) :
    scan_string ('\\' :: 'u' :: a :: b :: c :: d :: l) =
      scan_unicode (a :: b :: c :: d :: l) := by
  rw [scan_string]
  simp [scan_escape]

theorem scan_unicode_plain (n : Nat) (hA : ¬(0xd800 ≤ n ∧ n ≤ 0xdbff))
    (hB : ¬(0xdc00 ≤ n ∧ n ≤ 0xdfff)) (a b c d : Char) (l : List Char)
    (hx : hex4 a b c d = some n) :
    scan_unicode (a :: b :: c :: d :: l) =
      (fun p => (Char.ofNat n :: p.1, p.2)) <$> scan_string l := by
  rw [scan_unicode, hx]
  simp [hA, hB]

theorem scan_unicode_high (n : Nat) (h : 0xd800 ≤ n ∧ n ≤ 0xdbff)
    (a b c d : Char) (l : List Char) (hx : hex4 a b c d = some n) :
    scan_unicode (a :: b :: c :: d :: l) = scan_low_surrogate n l := by
  rw [scan_unicode, hx]
  simp [h]

theorem scan_low_surrogate_combine (hi m : Nat) (h : 0xdc00 ≤ m ∧ m ≤ 0xdfff)
    (e1 e2 e3 e4 : Char) (l : List Char) (hx : hex4 e1 e2 e3 e4 = some m) :
    scan_low_surrogate hi ('\\' :: 'u' :: e1 :: e2 :: e3 :: e4 :: l) =
      (fun p => (Char.ofNat (0x10000 + (hi - 0xd800) * 0x400 + (m - 0xdc00)) :: p.1, p.2)) <$>
        scan_string l := by
  rw [scan_low_surrogate, hx]
  simp [h]

theorem scan_string_uescape (n : Nat) (h16 : n < 0x10000)
    (hns : ¬(0xd800 ≤ n ∧ n ≤ 0xdfff)) (tail : List Char) :
    scan_string (uEscape n ++ tail) =
      (fun p => (Char.ofNat n :: p.1, p.2)) <$> scan_string tail := by
  have hA : ¬(0xd800 ≤ n ∧ n ≤ 0xdbff) := by omega
  have hB : ¬(0xdc00 ≤ n ∧ n ≤ 0xdfff) := by omega
  simp only [uEscape, List.cons_append, List.nil_append]
  rw [scan_string_backslash_u, scan_unicode_plain n hA hB _ _ _ _ _ (hex4_digits _ h16)]

theorem scan_string_surrogate_pair (n : Nat) (hlo : 0x10000 ≤ n) (hhi : n < 0x110000)
    (tail : List Char) :
    scan_string (uEscape (0xd800 + (n - 0x10000) / 0x400) ++
      (uEscape (0xdc00 + (n - 0x10000) % 0x400) ++ tail)) =
      (fun p => (Char.ofNat n :: p.1, p.2)) <$> scan_string tail := by
  have h16a : 0xd800 + (n - 0x10000) / 0x400 < 65536 := by omega
  have h16b : 0xdc00 + (n - 0x10000) % 0x400 < 65536 := by omega
  have hr1 : 0xd800 ≤ 0xd800 + (n - 0x10000) / 0x400 ∧
      0xd800 + (n - 0x10000) / 0x400 ≤ 0xdbff := by omega
  have hr2 : 0xdc00 ≤ 0xdc00 + (n - 0x10000) % 0x400 ∧
      0xdc00 + (n - 0x10000) % 0x400 ≤ 0xdfff := by omega
  simp only [uEscape, List.cons_append, List.nil_append]
  rw [scan_string_backslash_u,
      scan_unicode_high _ hr1 _ _ _ _ _ (hex4_digits _ h16a),
      scan_low_surrogate_combine _ _ hr2 _ _ _ _ _ (hex4_digits _ h16b)]
  have hfin : 0x10000 + (0xd800 + (n - 0x10000) / 0x400 - 0xd800) * 0x400 +
      (0xdc00 + (n - 0x10000) % 0x400 - 0xdc00) = n := by omega
  simp only [hfin]

theorem scan_string_backslash (e : Char) (l : List Char) :
    scan_string ('\\' :: e :: l) = scan_escape (e :: l) := by
  rw [scan_string]
  simp

/-- Scanning the ASCII-escaped encoding of `s` recovers exactly `s`,
leaving whatever follows the closing quote untouched. -/
theorem scan_string_encode (s : List Char) (rest : List Char) :
    scan_string ((s.map escape_char).flatten ++ '"' :: rest) = some (s, rest) := by
  induction s with
  | nil => simp [scan_string]
  | cons c s' ih =>
    simp only [List.map_cons, List.flatten_cons, List.append_assoc]
    by_cases h1 : c = '"'
    · subst h1
      rw [show escape_char '"' = ['\\', '"'] by decide]
      simp only [List.cons_append, List.nil_append]
      rw [scan_string_backslash, scan_escape]
      simp [ih]
    · by_cases h2 : c = '\\'
      · subst h2
        rw [show escape_char '\\' = ['\\', '\\'] by decide]
        simp only [List.cons_append, List.nil_append]
        rw [scan_string_backslash, scan_escape]
        simp [ih]
      · by_cases h3 : c.toNat = 8
        · have hc : Char.ofNat 8 = c := by rw [← h3, Char.ofNat_toNat]
          have he : escape_char c = ['\\', 'b'] := by
            unfold escape_char
            rw [if_neg h1, if_neg h2, if_pos h3]
          rw [he]
          simp only [List.cons_append, List.nil_append]
          rw [scan_string_backslash, scan_escape]
          simp [ih]
          exact hc
        · by_cases h4 : c.toNat = 9
          · have hc : Char.ofNat 9 = c := by rw [← h4, Char.ofNat_toNat]
            have he : escape_char c = ['\\', 't'] := by
              unfold escape_char
              rw [if_neg h1, if_neg h2, if_neg h3, if_pos h4]
            rw [he]
            simp only [List.cons_append, List.nil_append]
            rw [scan_string_backslash, scan_escape]
            simp [ih]
            exact hc
          · by_cases h5 : c.toNat = 10
            · have hc : Char.ofNat 10 = c := by rw [← h5, Char.ofNat_toNat]
              have he : escape_char c = ['\\', 'n'] := by
                unfold escape_char
                rw [if_neg h1, if_neg h2, if_neg h3, if_neg h4, if_pos h5]
              rw [he]
              simp only [List.cons_append, List.nil_append]
              rw [scan_string_backslash, scan_escape]
              simp [ih]
              exact hc
            · by_cases h6 : c.toNat = 12
              · have hc : Char.ofNat 12 = c := by rw [← h6, Char.ofNat_toNat]
                have he : escape_char c = ['\\', 'f'] := by
                  unfold escape_char
                  rw [if_neg h1, if_neg h2, if_neg h3, if_neg h4, if_neg h5, if_pos h6]
                rw [he]
                simp only [List.cons_append, List.nil_append]
                rw [scan_string_backslash, scan_escape]
                simp [ih]
                exact hc
              · by_cases h7 : c.toNat = 13
                · have hc : Char.ofNat 13 = c := by rw [← h7, Char.ofNat_toNat]
                  have he : escape_char c = ['\\', 'r'] := by
                    unfold escape_char
                    rw [if_neg h1, if_neg h2, if_neg h3, if_neg h4, if_neg h5, if_neg h6,
                      if_pos h7]
                  rw [he]
                  simp only [List.cons_append, List.nil_append]
                  rw [scan_string_backslash, scan_escape]
                  simp [ih]
                  exact hc
                · by_cases h8 : 0x20 ≤ c.toNat ∧ c.toNat ≤ 0x7e
                  · have he : escape_char c = [c] := by
                      unfold escape_char
                      rw [if_neg h1, if_neg h2, if_neg h3, if_neg h4, if_neg h5, if_neg h6,
                        if_neg h7, if_pos h8]
                    rw [he]
                    simp only [List.cons_append, List.nil_append]
                    rw [scan_string]
                    rw [if_neg h1, if_neg h2, if_neg (by omega : ¬c.toNat < 0x20)]
                    rw [ih]
                    rfl
                  · by_cases h9 : c.toNat < 0x10000
                    · have hns : ¬(0xd800 ≤ c.toNat ∧ c.toNat ≤ 0xdfff) := by
                        rcases char_toNat_valid c with h | h <;> omega
                      have he : escape_char c = uEscape c.toNat := by
                        unfold escape_char
                        rw [if_neg h1, if_neg h2, if_neg h3, if_neg h4, if_neg h5, if_neg h6,
                          if_neg h7, if_neg h8, if_pos h9]
                      rw [he]
                      rw [scan_string_uescape c.toNat h9 hns, ih]
                      simp
                    · have hhi : c.toNat < 0x110000 := by
                        rcases char_toNat_valid c with h | h <;> omega
                      have he : escape_char c =
                          uEscape (0xd800 + (c.toNat - 0x10000) / 0x400) ++
                            uEscape (0xdc00 + (c.toNat - 0x10000) % 0x400) := by
                        unfold escape_char
                        rw [if_neg h1, if_neg h2, if_neg h3, if_neg h4, if_neg h5, if_neg h6,
                          if_neg h7, if_neg h8, if_neg h9]
                      rw [he]
                      rw [List.append_assoc]
                      rw [scan_string_surrogate_pair c.toNat (by omega) hhi, ih]
                      simp

theorem encode_string_append (s l : List Char) :
    encode_string s ++ l = '"' :: string_body s l := by
  simp [encode_string, string_body]

theorem string_body_append (s a b : List Char) :
    string_body s a ++ b = string_body s (a ++ b) := by
  simp [string_body]

theorem scan_string_body (s rest : List Char) :
    scan_string (string_body s rest) = some (s, rest) :=
  scan_string_encode s rest

theorem parse_value_string (fuel : Nat) (s rest : List Char) :
    parse_value (fuel + 1) ('"' :: string_body s rest) = some (.jstr s, rest) := by
  simp only [parse_value]
  rw [skip_ws_not_ws _ _ (by decide)]
  simp [scan_string_body, lbrace]

theorem parse_value_congr (fuel : Nat) (i j : List Char) (h : skip_ws i = skip_ws j) :
    parse_value (fuel + 1) i = parse_value (fuel + 1) j := by
  rw [parse_value, parse_value, h]

theorem parse_value_string_sp (fuel : Nat) (s rest : List Char) :
    parse_value (fuel + 1) (' ' :: '"' :: string_body s rest) = some (.jstr s, rest) :=
  (parse_value_congr fuel _ _ (skip_ws_space _)).trans (parse_value_string fuel s rest)

theorem parse_value_string_nl (fuel : Nat) (d : Nat) (s rest : List Char) :
    parse_value (fuel + 1) (nl_ind d ++ '"' :: string_body s rest) =
      some (.jstr s, rest) :=
  (parse_value_congr fuel _ _ (skip_ws_nl_ind d _)).trans (parse_value_string fuel s rest)

theorem parse_value_bool (fuel : Nat) (b : Bool) (rest : List Char) :
    parse_value (fuel + 1) (' ' :: (bool_text b ++ rest)) = some (.jbool b, rest) := by
  cases b <;>
    simp [parse_value, bool_text, skip_ws_space, skip_ws_not_ws, is_json_ws, lbrace, skip_ws]

theorem parse_items_mods (tl : List (List Char)) :
    ∀ (m : List Char) (fuel : Nat) (acc : List JVal) (rest : List Char),
      parse_items (fuel + tl.length + 2)
        (nl_ind 3 ++ '"' :: string_body m (mods_items_rest tl ++ rest)) acc =
        some (.jarr (acc ++ (m :: tl).map JVal.jstr), rest) := by
  induction tl with
  | nil =>
    intro m fuel acc rest
    rw [parse_items]
    rw [show mods_items_rest [] ++ rest = nl_ind 2 ++ (']' :: rest) by
      simp [mods_items_rest]]
    rw [parse_value_string_nl]
    simp [skip_ws_nl_ind, skip_ws_not_ws, is_json_ws, skip_ws]
  | cons t tl' ih =>
    intro m fuel acc rest
    simp only [List.length_cons]
    rw [show fuel + (tl'.length + 1) + 2 = fuel + 1 + tl'.length + 2 by omega]
    rw [parse_items]
    rw [show mods_items_rest (t :: tl') ++ rest =
        ',' :: (nl_ind 3 ++ '"' :: string_body t (mods_items_rest tl' ++ rest)) by
      simp [mods_items_rest, encode_string_append, string_body_append]]
    rw [parse_value_string_nl]
    have ih2 := ih t fuel (acc ++ [JVal.jstr m]) rest
    rw [show fuel + tl'.length + 2 = fuel + 1 + tl'.length + 1 by omega] at ih2
    simp [skip_ws_not_ws, is_json_ws, skip_ws, ih2]

theorem parse_value_mods (ms : List (List Char)) (fuel : Nat) (rest : List Char) :
    parse_value (fuel + ms.length + 2) (' ' :: (mods_text ms ++ rest)) =
      some (.jarr (ms.map JVal.jstr), rest) := by
  cases ms with
  | nil =>
    simp [mods_text, parse_value, skip_ws_space, skip_ws_not_ws, is_json_ws, skip_ws, lbrace]
  | cons m tl =>
    simp only [List.length_cons]
    rw [show fuel + (tl.length + 1) + 2 = (fuel + tl.length + 2) + 1 by omega]
    rw [parse_value_congr _ _ _ (skip_ws_space _)]
    rw [show mods_text (m :: tl) ++ rest =
        '[' :: (nl_ind 3 ++ '"' :: string_body m (mods_items_rest tl ++ rest)) by
      simp [mods_text, encode_string_append, string_body_append]]
    simp only [parse_value]
    rw [skip_ws_not_ws _ _ (by decide)]
    have hitems := parse_items_mods tl m fuel [] rest
    simp [skip_ws_nl_ind, skip_ws_not_ws, is_json_ws, skip_ws, lbrace, hitems]

theorem parse_value_hotkey (hk : HotkeySpec) (fuel : Nat) (rest : List Char) :
    parse_value (fuel + hk.modifiers.length + 5) (' ' :: (hotkey_obj_text hk ++ rest)) =
      some (.jobj [("key".toList, .jstr hk.key),
                   ("modifiers".toList, .jarr (hk.modifiers.map JVal.jstr))], rest) := by
  rw [show fuel + hk.modifiers.length + 5 = (fuel + hk.modifiers.length + 4) + 1 by omega]
  rw [parse_value_congr _ _ _ (skip_ws_space _)]
  rw [show hotkey_obj_text hk ++ rest =
      lbrace :: (nl_ind 2 ++ '"' :: string_body "key".toList
        (':' :: ' ' :: '"' :: string_body hk.key
          (',' :: (nl_ind 2 ++ '"' :: string_body "modifiers".toList
            (':' :: ' ' :: (mods_text hk.modifiers ++ (nl_ind 1 ++ (rbrace :: rest)))))))) by
    simp [hotkey_obj_text, encode_string_append, string_body_append]]
  simp only [parse_value]
  rw [skip_ws_not_ws _ _ (by decide)]
  have hmods := parse_value_mods hk.modifiers fuel
  simp [parse_members, parse_value_string_sp, hmods, scan_string_body,
    skip_ws_nl_ind, skip_ws_space, skip_ws_not_ws, is_json_ws, skip_ws, lbrace, rbrace]

theorem parse_value_dumps (p : Preferences) (fuel : Nat) (rest : List Char) :
    parse_value (fuel + p.hotkey.modifiers.length + 7) (json_dumps_prefs p ++ rest) =
      some (prefsJVal p, rest) := by
  rw [show json_dumps_prefs p ++ rest =
      lbrace :: (nl_ind 1 ++ '"' :: string_body "hotkey".toList
        (':' :: ' ' :: (hotkey_obj_text p.hotkey ++
          (',' :: (nl_ind 1 ++ '"' :: string_body "save_location".toList
            (':' :: ' ' :: '"' :: string_body p.save_location
              (',' :: (nl_ind 1 ++ '"' :: string_body "auto_launch".toList
                (':' :: ' ' :: (bool_text p.auto_launch ++
                  (nl_ind 0 ++ (rbrace :: rest)))))))))))) by
    simp [json_dumps_prefs, encode_string_append, string_body_append]]
  rw [show fuel + p.hotkey.modifiers.length + 7 =
      (fuel + p.hotkey.modifiers.length + 6) + 1 by omega]
  simp only [parse_value]
  rw [skip_ws_not_ws _ _ (by decide)]
  have hhk := parse_value_hotkey p.hotkey fuel
  simp [parse_members, parse_value_string_sp, hhk, scan_string_body, prefsJVal,
    skip_ws_nl_ind, skip_ws_space, skip_ws_not_ws, is_json_ws, skip_ws, lbrace, rbrace]
  rw [show fuel + p.hotkey.modifiers.length + 3 =
      (fuel + p.hotkey.modifiers.length + 2) + 1 by omega]
  have hbool := parse_value_bool (fuel + p.hotkey.modifiers.length + 2) p.auto_launch
  simp only [hbool]
  simp [skip_ws_nl_ind, skip_ws_not_ws, is_json_ws, skip_ws]

theorem mods_items_rest_length (tl : List (List Char)) :
    tl.length ≤ (mods_items_rest tl).length := by
  induction tl with
  | nil => simp [mods_items_rest]
  | cons t tl' ih =>
    simp only [mods_items_rest, List.length_cons, List.length_append]
    omega

theorem mods_text_length (ms : List (List Char)) :
    ms.length ≤ (mods_text ms).length := by
  cases ms with
  | nil => simp [mods_text]
  | cons m tl =>
    have h := mods_items_rest_length tl
    simp only [mods_text, List.length_cons, List.length_append]
    omega

theorem json_dumps_prefs_length (p : Preferences) :
    p.hotkey.modifiers.length + 6 ≤ (json_dumps_prefs p).length := by
  have h := mods_text_length p.hotkey.modifiers
  simp only [json_dumps_prefs, hotkey_obj_text, List.length_append, List.length_cons,
    List.length_singleton]
  omega

theorem json_loads_dumps (p : Preferences) :
    json_loads (json_dumps_prefs p) = some (prefsJVal p) := by
  have hlen := json_dumps_prefs_length p
  unfold json_loads
  obtain ⟨f, hf⟩ : ∃ f, (json_dumps_prefs p).length + 1 = f + p.hotkey.modifiers.length + 7 :=
    ⟨(json_dumps_prefs p).length + 1 - (p.hotkey.modifiers.length + 7), by omega⟩
  rw [hf]
  have h := parse_value_dumps p f []
  rw [List.append_nil] at h
  rw [h]
  simp [skip_ws]

/-- Claim C6: for every preferences record, writing it with
`save_preferences` (the `json.dump(..., indent=4)` text) and reading the
resulting file back with `load_preferences` (`json.load`) yields exactly
the dictionary that was saved. -/
theorem preferences_roundtrip (p : Preferences) :
    load_preferences (some (save_preferences p)) = prefsJVal p := by
  simp only [load_preferences, save_preferences, json_loads_dumps]

/-- Claim C7: when the preferences file is missing, or its contents do
not parse as JSON, `load_preferences` raises nothing and returns the
default record (hotkey command+shift+4, save location `~/Screenshots`,
auto-launch enabled). -/
theorem load_preferences_fallback :
    (∀ text : List Char, json_loads text = none →
      load_preferences (some text) = DEFAULT_PREFERENCES) ∧
    load_preferences none = DEFAULT_PREFERENCES := by
  constructor
  · intro text h
    simp only [load_preferences, h]
  · rfl

/-- Witness for C7 at a concrete unparseable file. -/
theorem load_preferences_fallback_witness :
    json_loads "not json".toList = none ∧
    load_preferences (some "not json".toList) = DEFAULT_PREFERENCES :=
  ⟨rfl, load_preferences_fallback.1 _ rfl⟩
